import Mathlib

/-!
Shallow embedding of the task/event core and the message-feed
reconciliation logic of azul (src/azul.py), a GTK Zulip client, together
with proofs about the embedded operations.

Conventions of the embedding:
* Python attrs model classes become structures with the source's field
  names.  Fields that only hold GUI resources or lazily created network
  handles (`_client`, pixbufs, widgets) are omitted; fields the claims
  touch are kept.
* Mutating methods become functions from the old value to the new value;
  methods that can raise an uncaught exception return an `Option` or
  `Except`, `none`/`.error` standing for the raised exception.
* Signal emissions (`bus.emit...`) are collected into explicit lists of
  `BusEmission` values in the order the source emits them.
* Network interactions are abstracted by passing the parsed response (or
  the raised error) to the task's `process` function as an argument.
-/

namespace Azul

/-- Reaction on a message (azul.py `ReactionModel`). -/
structure ReactionModel where
  code : String
  type : String
  name : String
  deriving DecidableEq, Repr

/-- One message (azul.py `MessageModel`).  `stream_id` defaults to `None`
in the source, hence `Option Nat`. -/
structure MessageModel where
  id : Nat
  type : String
  sender_name : String
  sender_avatar : String
  sender_id : Nat
  topic_name : String
  reactions : List ReactionModel
  content : String
  stream_id : Option Nat := none
  deriving DecidableEq, Repr

/-- Result of a paginated message fetch (azul.py `MessagesModel`). -/
structure MessagesModel where
  found_oldest : Bool
  found_newest : Bool
  messages : List MessageModel
  deriving DecidableEq, Repr

/-- Stream (azul.py `StreamModel`; the subscription-only fields of
`SubscribedStreamModel` are not needed by any claim). -/
structure StreamModel where
  id : Nat
  name : String
  description : String
  invite_only : Bool
  deriving DecidableEq, Repr

/-- Topic (azul.py `TopicModel`). -/
structure TopicModel where
  name : String
  max_id : Option Nat := none
  deriving DecidableEq, Repr

/-- Search filter (azul.py `SearchNarrow`).  The free-form `query` dict is
modelled as an association list of operator/operand pairs. -/
structure SearchNarrow where
  stream : Option StreamModel := none
  topic : Option TopicModel := none
  query : List (String × String) := []
  deriving DecidableEq, Repr

/-- Realm info (azul.py `AccountInfo`); `icon` is set on the object by
`LoadAccountTask.process` after fetching the icon bytes. -/
structure AccountInfo where
  name : String
  description : String
  icon_url : String
  icon : Option String := none
  deriving DecidableEq, Repr

/-- Event-queue cursor state (azul.py `AccountQueueModel`). -/
structure AccountQueueModel where
  id : String
  last_event_id : Int
  deriving DecidableEq, Repr

/-- Account (azul.py `AccountModel`).  The lazily created HTTP client is
omitted; `index` is `-1` for a not-yet-registered account. -/
structure AccountModel where
  index : Int
  server : String
  email : String
  apikey : Option String
  info : Option AccountInfo := none
  queue : Option AccountQueueModel := none
  deriving DecidableEq, Repr

/-- Long-poll event (azul.py `EventModel` / `MessageEventModel`).
`EventModel.from_data` builds a `MessageEventModel` for events whose tagged
type is `message` and a plain `EventModel` (id only) for heartbeats and
unknown types, so the embedding is a two-variant sum. -/
inductive EventModel where
  | message (id : Int) (message : MessageModel)
  | other (id : Int)
  deriving DecidableEq, Repr

/-- Identifier carried by every event. -/
def EventModel.id : EventModel → Int
  | .message i _ => i
  | .other i => i

/-- Python `isinstance(event, MessageEventModel)`. -/
def EventModel.isMessageEvent : EventModel → Bool
  | .message _ _ => true
  | .other _ => false

/-- Named signal emitted on the event bus (`bus.emit_from_main_thread` /
`self.emit`), with the payload shape the source gives each signal. -/
inductive BusEmission where
  | login_failed (account : AccountModel) (error : String)
  | api_key_retrieved (account : AccountModel)
  | data_loaded (url : String) (data : String)
  | account_loaded (account : AccountModel)
  | account_streams_loaded (account : AccountModel) (streams : List (String × StreamModel))
  | stream_topics_loaded (account : AccountModel) (stream : StreamModel) (topics : List TopicModel)
  | messages_loaded (account : AccountModel) (narrow : SearchNarrow) (anchor : Int)
      (messages : MessagesModel)
  | message_narrow_failed (account : AccountModel) (narrow : SearchNarrow) (desc : String)
  | message_events (account : AccountModel) (events : List EventModel)
  deriving DecidableEq, Repr

/-! ## The long-poll task (azul.py `MonitorAccountEventsTask.process`)

The body of the `while True` loop is embedded as a step function over the
queue cursor.  One iteration either gets a parsed event list back from
`get_events`, or an ordinary exception is raised somewhere in the body, or
the cancellation signal `greenlet.GreenletExit` is raised. -/

/-- Outcome of one iteration's interaction with the outside world. -/
inductive PollOutcome where
  | events (events : List EventModel)
  | failure
  | cancel
  deriving DecidableEq, Repr

/-- Error raised inside the loop body after a successful poll:
`events[-1]` raises `IndexError` when the returned list is empty. -/
inductive IterationError where
  | index_error
  deriving DecidableEq, Repr

/-- Loop body after `get_events` returned `events`: filter the
message-type events, emit them as one `message-events` notification when
there is at least one, then advance the cursor to the last event's id
(which raises `IndexError` on an empty list, after the emission point).
The emissions are returned alongside the cursor outcome because in the
source they have already happened when the error is raised. -/
def monitorBody (account : AccountModel) (queue : AccountQueueModel)
    (events : List EventModel) :
    List BusEmission × Except IterationError AccountQueueModel :=
  let message_events := events.filter EventModel.isMessageEvent
  let emissions :=
    if message_events.isEmpty then []
    else [BusEmission.message_events account message_events]
  match events.getLast? with
  | some ev => (emissions, Except.ok { queue with last_event_id := ev.id })
  | none => (emissions, Except.error IterationError.index_error)

/-- What one loop iteration does to the loop itself. -/
inductive MonitorStep where
  | continue_loop (queue : AccountQueueModel) (emissions : List BusEmission)
  | exit_loop
  deriving DecidableEq, Repr

/-- One iteration of `MonitorAccountEventsTask.process`: the bare
`except:` catches any ordinary exception (including the `IndexError` of
the body) and the loop continues; `except greenlet.GreenletExit: raise`
re-raises the cancellation signal, unwinding the loop. -/
def monitorStep (account : AccountModel) (queue : AccountQueueModel)
    (outcome : PollOutcome) : MonitorStep :=
  match outcome with
  | .cancel => .exit_loop
  | .failure => .continue_loop queue []
  | .events evs =>
      match monitorBody account queue evs with
      | (emissions, .ok q) => .continue_loop q emissions
      | (emissions, .error _) => .continue_loop queue emissions

/-! ## Account management on the event bus (azul.py `EventBus.set_account`,
`EventBus._save_account_data`)

`self._accounts` is an insertion-ordered dict keyed by server, embedded as
an association list; assigning to an existing key rewrites its value in
place, assigning a fresh key appends.  `self.settings.set_value('accounts',
...)` persists the `(server, email, apikey-or-empty)` triples in dict
order. -/

/-- Validation failures `set_account` raises (azul.py `ValidationError`
messages, one constructor per raise site). -/
inductive ValidationFailure where
  | invalid_server
  | invalid_email
  | invalid_password
  | duplicate_server
  deriving DecidableEq, Repr

/-- Python dict assignment `d[k] = v` on an insertion-ordered dict. -/
def dictSet (d : List (String × AccountModel)) (k : String) (v : AccountModel) :
    List (String × AccountModel) :=
  if d.any (fun p => p.1 == k) then
    d.map (fun p => if p.1 = k then (k, v) else p)
  else d ++ [(k, v)]

/-- Mutable bus state the claims about `set_account` observe: the accounts
dict and the persisted `accounts` settings value. -/
structure BusAccountsState where
  accounts : List (String × AccountModel)
  settings : List (String × String × String)
  deriving DecidableEq, Repr

/-- `EventBus._save_account_data`: the settings value rebuilt from the
accounts dict. -/
def save_account_data (accounts : List (String × AccountModel)) :
    List (String × String × String) :=
  accounts.map (fun p => (p.2.server, p.2.email, p.2.apikey.getD ""))

/-- `EventBus.set_account`: the four validation checks in source order,
each raising before any state is touched; then the index assignment, the
dict update and the settings rewrite.  Python's substring test
`'@' in account.email` is a single-character containment, embedded as
membership of `'@'` in the email's characters.  The keyring write and the
`_load_account` task submission that follow are external effects outside
the claims and are not modelled.  On success the possibly re-indexed
account is returned with the new state. -/
def set_account (s : BusAccountsState) (account : AccountModel) (password : String) :
    Except ValidationFailure (BusAccountsState × AccountModel) :=
  if account.server = "" then .error .invalid_server
  else if ¬ account.email.toList.contains '@' then .error .invalid_email
  else if password = "" then .error .invalid_password
  else if (s.accounts.any fun p => p.1 == account.server) ∧ account.index = -1 then
    .error .duplicate_server
  else
    let account :=
      if account.index = -1 then { account with index := (s.accounts.length : Int) }
      else account
    let accounts := dictSet s.accounts account.server account
    .ok ({ accounts := accounts, settings := save_account_data accounts }, account)

/-- Bus state after a `set_account` call: a raised `ValidationError`
propagates to the caller and, all checks preceding any mutation in the
source, leaves the state as it was. -/
def set_account_final (s : BusAccountsState) (account : AccountModel)
    (password : String) : BusAccountsState :=
  match set_account s account password with
  | .ok (s', _) => s'
  | .error _ => s

/-! ## The URL content cache (azul.py `EventBus.load_data_from_url`,
`EventBus.on_data_loaded`)

`self._cache` maps a url to either the sentinel `self._cache_loading`
(fetch pending) or the fetched bytes; both cache methods run under
`self._cache_lock`, so each call is one atomic step. -/

/-- Cache slot: the `_cache_loading` sentinel or stored bytes. -/
inductive CacheEntry where
  | loading
  | data (bytes : String)
  deriving DecidableEq, Repr

/-- The bus's `_cache` dict. -/
structure CacheState where
  cache : List (String × CacheEntry)
  deriving DecidableEq, Repr

/-- Python `url in self._cache` / `self._cache.get(url)`. -/
def cacheLookup (c : List (String × CacheEntry)) (url : String) : Option CacheEntry :=
  (c.find? fun p => p.1 == url).map (fun p => p.2)

/-- Externally visible effect of a cache call: enqueueing a `LoadDataTask`
on the worker (a network fetch) or emitting the `data-loaded` signal. -/
inductive CacheAction where
  | fetch (url : String)
  | emit_data_loaded (url : String) (data : String)
  deriving DecidableEq, Repr

/-- `EventBus.load_data_from_url`: a pending fetch (`loading` entry) makes
the call return with no effect; a stored entry re-emits `data-loaded` with
the cached bytes; a miss marks the url loading and enqueues the single
fetch (`load_uncached_data_from_url`). -/
def load_data_from_url (s : CacheState) (url : String) : CacheState × List CacheAction :=
  match cacheLookup s.cache url with
  | some CacheEntry.loading => (s, [])
  | some (CacheEntry.data d) => (s, [CacheAction.emit_data_loaded url d])
  | none => (⟨s.cache ++ [(url, CacheEntry.loading)]⟩, [CacheAction.fetch url])

/-- `EventBus.on_data_loaded` (connected to the `data-loaded` signal the
fetch task emits): store the bytes iff the entry still holds the loading
sentinel. -/
def on_data_loaded (s : CacheState) (url : String) (data : String) : CacheState :=
  if cacheLookup s.cache url = some CacheEntry.loading then
    ⟨s.cache.map fun p => if p.1 = url then (url, CacheEntry.data data) else p⟩
  else s

/-- Completion of the single fetch: `LoadDataTask.process` emits one
`data-loaded` broadcast (received by every connected requester) and the
bus's own handler stores the bytes. -/
def complete_fetch (s : CacheState) (url : String) (data : String) :
    CacheState × List CacheAction :=
  (on_data_loaded s url data, [CacheAction.emit_data_loaded url data])

/-- Successive `load_data_from_url` calls on the main thread, with their
accumulated effects. -/
def load_many : CacheState → List String → CacheState × List CacheAction
  | s, [] => (s, [])
  | s, url :: rest =>
      match load_data_from_url s url with
      | (s₁, acts) =>
          match load_many s₁ rest with
          | (s₂, acts') => (s₂, acts ++ acts')

/-! ## One-shot tasks (azul.py `GetApiKeyTask` ... `SendMessageTask`)

Each `process(self, bus)` is embedded as a function of the parsed network
response (or the error the underlying call raised).  A returned
`Except.error` models an exception leaving `process` uncaught — nothing in
`TaskThread.run` catches it; the greenlet dies with it. -/

/-- Error raised by a network call (`requests`/`zulip` exceptions). -/
structure NetworkError where
  message : String
  deriving DecidableEq, Repr

/-- Outcome of `fetch_api_key` as `GetApiKeyTask.process` sees it: the
call raised `zulip.ZulipError`, or returned a result dict with
`result == 'error'`, or succeeded with an API key. -/
inductive ApiKeyResult where
  | zulip_error (msg : String)
  | error_result (msg : String)
  | success (api_key : String)
  deriving DecidableEq, Repr

/-- `GetApiKeyTask.process`: the only task with a `try`/`except` — it
catches `zulip.ZulipError` (and only that) and turns both it and an error
result into a `login-failed` emission; on success it stores the key on the
account before emitting `api-key-retrieved`.  Every branch emits exactly
one signal. -/
def GetApiKeyTask.process (account : AccountModel) (result : ApiKeyResult) :
    List BusEmission × AccountModel :=
  match result with
  | .zulip_error msg => ([BusEmission.login_failed account msg], account)
  | .error_result msg => ([BusEmission.login_failed account msg], account)
  | .success key =>
      let account := { account with apikey := some key }
      ([BusEmission.api_key_retrieved account], account)

/-- `LoadDataTask.process`: `requests.get(...).content` then one
`data-loaded` emission; a raised network error is not caught. -/
def LoadDataTask.process (url : String) (response : Except NetworkError String) :
    Except NetworkError (List BusEmission) :=
  match response with
  | .ok data => .ok [BusEmission.data_loaded url data]
  | .error e => .error e

/-- `LoadAccountTask.process`: fetch server settings, the realm icon and
an event queue registration, store them on the account, then emit
`account-loaded`; errors are not caught. -/
def LoadAccountTask.process (account : AccountModel)
    (response : Except NetworkError (AccountInfo × String × AccountQueueModel)) :
    Except NetworkError (List BusEmission × AccountModel) :=
  match response with
  | .ok (info, icon, queue) =>
      let account :=
        { account with info := some { info with icon := some icon }, queue := some queue }
      .ok ([BusEmission.account_loaded account], account)
  | .error e => .error e

/-- `LoadStreamsTask.process` (subscribed case): build the name-keyed
streams dict and emit `account-streams-loaded`; errors are not caught. -/
def LoadStreamsTask.process (account : AccountModel)
    (response : Except NetworkError (List StreamModel)) :
    Except NetworkError (List BusEmission) :=
  match response with
  | .ok stream_data =>
      .ok [BusEmission.account_streams_loaded account
            (stream_data.map fun st => (st.name, st))]
  | .error e => .error e

/-- `LoadTopicsTask.process`: emit `stream-topics-loaded`; errors are not
caught. -/
def LoadTopicsTask.process (account : AccountModel) (stream : StreamModel)
    (response : Except NetworkError (List TopicModel)) :
    Except NetworkError (List BusEmission) :=
  match response with
  | .ok topics => .ok [BusEmission.stream_topics_loaded account stream topics]
  | .error e => .error e

/-- Parsed result of the `messages` endpoint: a `BAD_NARROW` error code or
a messages payload. -/
inductive MessagesResult where
  | bad_narrow (desc : String)
  | messages (messages : MessagesModel)
  deriving DecidableEq, Repr

/-- `LoadMessagesTask.process`: `BAD_NARROW` becomes a distinct
`message-narrow-failed` emission, anything else `messages-loaded`; errors
are not caught. -/
def LoadMessagesTask.process (account : AccountModel) (anchor : Int)
    (narrow : SearchNarrow) (response : Except NetworkError MessagesResult) :
    Except NetworkError (List BusEmission) :=
  match response with
  | .ok (.bad_narrow desc) => .ok [BusEmission.message_narrow_failed account narrow desc]
  | .ok (.messages ms) => .ok [BusEmission.messages_loaded account narrow anchor ms]
  | .error e => .error e

/-- Request dict `SendMessageTask.process` posts (the `to` key is written
`«to»`, `to` being reserved in Lean). -/
structure SendMessageRequest where
  type : String
  «to» : String
  subject : String
  content : String
  deriving DecidableEq, Repr

/-- The request `SendMessageTask.process` builds from its stream, topic
and content. -/
def SendMessageTask.request (stream : StreamModel) (topic : TopicModel)
    (content : String) : SendMessageRequest :=
  { type := "stream", «to» := stream.name, subject := topic.name, content := content }

/-- `SendMessageTask.process`: builds the request, calls
`client.send_message(request)`, discards its result and returns — it emits
no bus signal at all, and a raised error is not caught. -/
def SendMessageTask.process (stream : StreamModel) (topic : TopicModel)
    (content : String) (send : SendMessageRequest → Except NetworkError Unit) :
    Except NetworkError (List BusEmission) :=
  match send (SendMessageTask.request stream topic content) with
  | .ok _ => .ok []
  | .error e => .error e

/-! ## Message-feed reconciliation (azul.py `MessagesFromSenderView`,
`TopicView`, `MessagesView`)

The widget tree is embedded by its data content: a `MessagesFromSenderView`
is one contiguous run of same-sender messages, a `TopicView` is one topic
section holding its message list and its ordered child runs (`runs = []`
models the state where `self.bottom` is still the header label), and a
`MessagesView` is the feed: the ordered topic sections of the listbox plus
the narrow/listbox state.  Scroll-adjustment state
(`requested_more_messages`, adjustment values) drives only when loads are
requested, not how batches are merged, and is not modelled. -/

/-- One run of consecutive messages from a single sender (azul.py
`MessagesFromSenderView`): `first` is the message it was created with,
`messages` the run's messages in order. -/
structure MessagesFromSenderView where
  first : MessageModel
  messages : List MessageModel
  deriving DecidableEq, Repr

/-- `MessagesFromSenderView.add_message` (the text re-render is
presentation only). -/
def MessagesFromSenderView.add_message (v : MessagesFromSenderView)
    (m : MessageModel) : MessagesFromSenderView :=
  { v with messages := v.messages ++ [m] }

/-- `MessagesFromSenderView.__init__(bus, account, first)`: it stores
`first` and immediately calls `add_message(first)`. -/
def MessagesFromSenderView.make (m : MessageModel) : MessagesFromSenderView :=
  MessagesFromSenderView.add_message { first := m, messages := [] } m

/-- One topic section (azul.py `TopicView`): header name, the accumulated
message list and the sender-runs below the header.  `self.bottom` is the
last element of `runs` once a run exists, the header label before. -/
structure TopicView where
  stream_id : Option Nat
  name : String
  messages : List MessageModel
  runs : List MessagesFromSenderView
  deriving DecidableEq, Repr

/-- `TopicView.__init__(bus, account, stream_id, name)`. -/
def TopicView.make (stream_id : Option Nat) (name : String) : TopicView :=
  { stream_id := stream_id, name := name, messages := [], runs := [] }

/-- `TopicView.add_message`: append to `self.messages`; if `self.bottom`
is a sender view whose `first.sender_id` equals the new sender, add to it,
else attach a fresh `MessagesFromSenderView` below and make it the new
bottom. -/
def TopicView.add_message (tv : TopicView) (m : MessageModel) : TopicView :=
  match tv.runs.getLast? with
  | some bottom =>
      if bottom.first.sender_id = m.sender_id then
        { tv with messages := tv.messages ++ [m],
                  runs := tv.runs.dropLast ++ [bottom.add_message m] }
      else
        { tv with messages := tv.messages ++ [m],
                  runs := tv.runs ++ [MessagesFromSenderView.make m] }
  | none =>
      { tv with messages := tv.messages ++ [m],
                runs := [MessagesFromSenderView.make m] }

/-- The message-feed widget (azul.py `MessagesView`): current narrow
(`None` before the first load), whether `self.listbox` exists, the last
loaded messages result and the ordered topic sections. -/
structure MessagesView where
  narrow : Option SearchNarrow
  has_listbox : Bool
  last_messages : Option MessagesModel
  topic_views : List TopicView
  deriving DecidableEq, Repr

/-- `MessagesView.__init__`: no narrow, no listbox, no sections. -/
def MessagesView.make : MessagesView :=
  { narrow := none, has_listbox := false, last_messages := none, topic_views := [] }

/-- The `for message in messages.messages` loop of `on_messages_loaded`:
`curr` is the running `topic_view` local (`none` while it is still
Python's `None`), `done` the new sections already inserted before it.
A message whose topic differs from the current section's name closes that
section and opens a fresh `TopicView`; insertion order in the listbox is
`done ++ [curr]` because `topic_view_insert_position` advances by one per
created section. -/
def buildTopicGroups (msgs : List MessageModel) (curr : Option TopicView)
    (done : List TopicView) : List TopicView × Option TopicView :=
  match msgs with
  | [] => (done, curr)
  | m :: rest =>
      match curr with
      | none =>
          buildTopicGroups rest
            (some ((TopicView.make m.stream_id m.topic_name).add_message m)) done
      | some tv =>
          if tv.name = m.topic_name then
            buildTopicGroups rest (some (tv.add_message m)) done
          else
            buildTopicGroups rest
              (some ((TopicView.make m.stream_id m.topic_name).add_message m))
              (done ++ [tv])

/-- `MessagesView.on_messages_loaded` (for a signal of this view's own
account; the early return for another account leaves the view unchanged).
`none` models an uncaught exception: `self.topic_views[0]` or
`messages.messages[-1]` raising `IndexError`, or `topic_view.add_message`
on `None` raising `AttributeError` in the backlog loop.  Steps, in source
order: rebuild the listbox (dropping all sections) when the narrow changed
or no listbox exists; on a `found_newest` batch insert the new sections at
the end, otherwise insert at the front, first merging away the old first
section when its topic equals the batch's last message's topic — its
messages after the first become `message_backlog`, appended onto the last
new section. -/
def on_messages_loaded (view : MessagesView) (narrow : SearchNarrow)
    (messages : MessagesModel) : Option MessagesView :=
  let tvs :=
    if view.narrow = some narrow ∧ view.has_listbox then view.topic_views else []
  let prepared : Option (List TopicView × List MessageModel × Bool) :=
    if messages.found_newest then
      some (tvs, [], true)
    else
      match tvs with
      | [] => none
      | tv0 :: rest =>
          match messages.messages.getLast? with
          | none => none
          | some lastMsg =>
              if tv0.name = lastMsg.topic_name then
                some (rest, tv0.messages.drop 1, false)
              else
                some (tv0 :: rest, [], false)
  match prepared with
  | none => none
  | some (old, backlog, at_end) =>
      match buildTopicGroups messages.messages none [], backlog with
      | (done, none), [] =>
          some { narrow := some narrow, has_listbox := true,
                 last_messages := some messages,
                 topic_views := if at_end then old ++ done else done ++ old }
      | (_, none), _ :: _ => none
      | (done, some tv), _ =>
          let tv := backlog.foldl TopicView.add_message tv
          some { narrow := some narrow, has_listbox := true,
                 last_messages := some messages,
                 topic_views :=
                   if at_end then old ++ (done ++ [tv]) else (done ++ [tv]) ++ old }

/-- `MessagesView.on_message_events` event loop over the delivered batch.
`none` models an uncaught exception: `event.message` on a non-message
event (`AttributeError`) or `self.topic_views[-1]` on an empty feed
(`IndexError`).  An event failing the stream or topic check is skipped
(`continue`); a passing message goes to the last section's
`add_message`. -/
def applyMessageEvents (narrow : SearchNarrow) (tvs : List TopicView) :
    List EventModel → Option (List TopicView)
  | [] => some tvs
  | EventModel.other _ :: _ => none
  | EventModel.message _ msg :: rest =>
      if (∃ st ∈ narrow.stream, msg.stream_id ≠ some st.id) then
        applyMessageEvents narrow tvs rest
      else if (∃ t ∈ narrow.topic, msg.topic_name ≠ t.name) then
        applyMessageEvents narrow tvs rest
      else
        match tvs.getLast? with
        | none => none
        | some last =>
            applyMessageEvents narrow (tvs.dropLast ++ [last.add_message msg]) rest

/-- `MessagesView.on_message_events` (for this view's own account): return
unchanged when no narrow is set yet or the narrow carries query terms
(`self.narrow.query` truthy); otherwise run the event loop against the
narrow's stream/topic constraints. -/
def on_message_events (view : MessagesView) (events : List EventModel) :
    Option MessagesView :=
  match view.narrow with
  | none => some view
  | some narrow =>
      if narrow.query ≠ [] then some view
      else
        match applyMessageEvents narrow view.topic_views events with
        | none => none
        | some tvs => some { view with topic_views := tvs }

/-! ## Grouping invariants

These predicates state, over the embedded widget data, what the spec's
grouping algorithm promises: the flat message sequence of the feed is the
concatenation of its topic sections; each section is non-empty, shows only
messages of its own topic, and adjacent sections carry different topic
names (so a section boundary sits exactly where the topic changes between
consecutive messages); inside a section the runs concatenate to the
section's messages, each run is non-empty and single-sender, and adjacent
runs have different senders (a run boundary exactly where the sender
changes). -/

/-- Messages of a feed, in display order. -/
def feedMessages (tvs : List TopicView) : List MessageModel :=
  (tvs.map TopicView.messages).flatten

/-- Well-formed sender-run: non-empty, starts with `first`, and every
message in it is from `first`'s sender. -/
def goodRun (r : MessagesFromSenderView) : Prop :=
  r.messages ≠ [] ∧ r.messages.head? = some r.first ∧
    ∀ m ∈ r.messages, m.sender_id = r.first.sender_id

/-- Well-formed topic section: non-empty, single-topic, its runs
concatenate to its messages, each run is well-formed and adjacent runs
have different senders. -/
def goodTopicView (tv : TopicView) : Prop :=
  tv.messages ≠ [] ∧
  (∀ m ∈ tv.messages, m.topic_name = tv.name) ∧
  (tv.runs.map MessagesFromSenderView.messages).flatten = tv.messages ∧
  (∀ r ∈ tv.runs, goodRun r) ∧
  List.Chain' (· ≠ ·) (tv.runs.map fun r => r.first.sender_id)

theorem feedMessages_append (l₁ l₂ : List TopicView) :
    feedMessages (l₁ ++ l₂) = feedMessages l₁ ++ feedMessages l₂ := by
  simp [feedMessages]

theorem feedMessages_singleton (tv : TopicView) :
    feedMessages [tv] = tv.messages := by
  simp [feedMessages]

theorem MessagesFromSenderView.add_message_first (r : MessagesFromSenderView)
    (m : MessageModel) : (r.add_message m).first = r.first := rfl

theorem MessagesFromSenderView.make_eq (m : MessageModel) :
    MessagesFromSenderView.make m = { first := m, messages := [m] } := rfl

theorem TopicView.add_message_name (tv : TopicView) (m : MessageModel) :
    (tv.add_message m).name = tv.name := by
  unfold TopicView.add_message
  cases tv.runs.getLast? with
  | none => rfl
  | some bottom =>
      by_cases h : bottom.first.sender_id = m.sender_id <;> simp [h]

theorem TopicView.add_message_messages (tv : TopicView) (m : MessageModel) :
    (tv.add_message m).messages = tv.messages ++ [m] := by
  unfold TopicView.add_message
  cases tv.runs.getLast? with
  | none => rfl
  | some bottom =>
      by_cases h : bottom.first.sender_id = m.sender_id <;> simp [h]

theorem goodRun_make (m : MessageModel) : goodRun (MessagesFromSenderView.make m) := by
  refine ⟨by simp [MessagesFromSenderView.make_eq], ?_, ?_⟩ <;>
    simp [MessagesFromSenderView.make_eq]

theorem goodRun_add (r : MessagesFromSenderView) (m : MessageModel)
    (h : goodRun r) (hs : m.sender_id = r.first.sender_id) :
    goodRun (r.add_message m) := by
  obtain ⟨h1, h2, h3⟩ := h
  refine ⟨by simp [MessagesFromSenderView.add_message], ?_, ?_⟩
  · show (r.messages ++ [m]).head? = some r.first
    rw [List.head?_append_of_ne_nil _ h1]; exact h2
  · intro x hx
    rcases List.mem_append.1 hx with hx | hx
    · exact h3 x hx
    · simp at hx; subst hx; exact hs

/-- A non-empty well-formed section has at least one run. -/
theorem goodTopicView_runs_ne_nil (tv : TopicView) (h : goodTopicView tv) :
    tv.runs ≠ [] := by
  intro h0
  have := h.2.2.1
  rw [h0] at this
  simp at this
  exact h.1 this

/-- `TopicView.add_message` preserves section well-formedness when the new
message belongs to the section's topic. -/
theorem goodTopicView_add (tv : TopicView) (m : MessageModel)
    (h : goodTopicView tv) (hm : m.topic_name = tv.name) :
    goodTopicView (tv.add_message m) := by
  obtain ⟨hne, htopic, hflat, hruns, hchain⟩ := h
  have hrne : tv.runs ≠ [] := goodTopicView_runs_ne_nil tv ⟨hne, htopic, hflat, hruns, hchain⟩
  have hlast : tv.runs.getLast? = some (tv.runs.getLast hrne) :=
    List.getLast?_eq_getLast_of_ne_nil hrne
  set bottom := tv.runs.getLast hrne with hbottom
  have hdecomp : tv.runs.dropLast ++ [bottom] = tv.runs :=
    List.dropLast_append_getLast hrne
  have hbotmem : bottom ∈ tv.runs := List.getLast_mem hrne
  have hbotgood : goodRun bottom := hruns bottom hbotmem
  unfold TopicView.add_message
  rw [hlast]
  by_cases hs : bottom.first.sender_id = m.sender_id
  · simp only [if_pos hs]
    refine ⟨by simp, ?_, ?_, ?_, ?_⟩
    · intro x hx
      rcases List.mem_append.1 hx with hx | hx
      · exact htopic x hx
      · simp at hx; subst hx; exact hm
    · show ((tv.runs.dropLast ++ [bottom.add_message m]).map
          MessagesFromSenderView.messages).flatten = tv.messages ++ [m]
      have step : ((tv.runs.dropLast ++ [bottom]).map
          MessagesFromSenderView.messages).flatten = tv.messages := by
        rw [hdecomp]; exact hflat
      simp only [List.map_append, List.flatten_append] at step ⊢
      simp only [List.map_cons, List.map_nil, List.flatten_cons, List.flatten_nil,
        List.append_nil] at step ⊢
      show (tv.runs.dropLast.map MessagesFromSenderView.messages).flatten ++
          (bottom.messages ++ [m]) = tv.messages ++ [m]
      rw [← List.append_assoc, step]
    · intro r hr
      rcases List.mem_append.1 hr with hr | hr
      · exact hruns r (List.dropLast_subset _ hr)
      · simp at hr; subst hr
        exact goodRun_add bottom m hbotgood hs.symm
    · have hmapeq : (tv.runs.dropLast ++ [bottom.add_message m]).map
          (fun r => r.first.sender_id) =
          tv.runs.map (fun r => r.first.sender_id) := by
        conv_rhs => rw [← hdecomp]
        simp [MessagesFromSenderView.add_message_first]
      rw [hmapeq]; exact hchain
  · simp only [if_neg hs]
    refine ⟨by simp, ?_, ?_, ?_, ?_⟩
    · intro x hx
      rcases List.mem_append.1 hx with hx | hx
      · exact htopic x hx
      · simp at hx; subst hx; exact hm
    · show ((tv.runs ++ [MessagesFromSenderView.make m]).map
          MessagesFromSenderView.messages).flatten = tv.messages ++ [m]
      simp only [List.map_append, List.flatten_append, List.map_cons, List.map_nil,
        List.flatten_cons, List.flatten_nil, List.append_nil]
      rw [hflat, MessagesFromSenderView.make_eq]
    · intro r hr
      rcases List.mem_append.1 hr with hr | hr
      · exact hruns r hr
      · simp at hr; subst hr; exact goodRun_make m
    · rw [List.map_append]
      rw [List.chain'_append]
      refine ⟨hchain, by simp, ?_⟩
      intro x hx y hy
      rw [List.getLast?_map] at hx
      rw [hlast] at hx
      simp at hx hy
      subst hx
      rw [MessagesFromSenderView.make_eq] at hy
      simp at hy
      subst hy
      exact hs

/-- A fresh section fed its first message is well-formed. -/
theorem goodTopicView_fresh (sid : Option Nat) (m : MessageModel) :
    goodTopicView ((TopicView.make sid m.topic_name).add_message m) := by
  refine ⟨by simp [TopicView.make, TopicView.add_message], ?_, ?_, ?_, ?_⟩ <;>
    simp [TopicView.make, TopicView.add_message, MessagesFromSenderView.make_eq,
      goodRun]

/-- Soundness of the section-building loop, by induction along the batch:
starting from a well-formed current section and already-inserted sections
with pairwise-distinct adjacent names, the loop yields well-formed
sections, keeps adjacent names distinct, appends exactly the processed
messages, and leaves the final section named after the batch's last
message's topic. -/
theorem buildTopicGroups_sound :
    ∀ (msgs : List MessageModel) (curr : TopicView) (done : List TopicView),
      (∀ tv ∈ done ++ [curr], goodTopicView tv) →
      List.Chain' (· ≠ ·) ((done ++ [curr]).map TopicView.name) →
      ∃ done' curr',
        buildTopicGroups msgs (some curr) done = (done', some curr') ∧
        (∀ tv ∈ done' ++ [curr'], goodTopicView tv) ∧
        List.Chain' (· ≠ ·) ((done' ++ [curr']).map TopicView.name) ∧
        feedMessages (done' ++ [curr']) = feedMessages (done ++ [curr]) ++ msgs ∧
        (msgs = [] → done' = done ∧ curr' = curr) ∧
        ∀ lm ∈ msgs.getLast?, curr'.name = lm.topic_name := by
  intro msgs
  induction msgs with
  | nil =>
      intro curr done hgood hchain
      exact ⟨done, curr, rfl, hgood, hchain, by simp, fun _ => ⟨rfl, rfl⟩, by simp⟩
  | cons m rest ih =>
      intro curr done hgood hchain
      by_cases hname : curr.name = m.topic_name
      · have hcurr_good : goodTopicView curr := hgood curr (by simp)
        have hadd : goodTopicView (curr.add_message m) :=
          goodTopicView_add curr m hcurr_good hname.symm
        have hgood' : ∀ tv ∈ done ++ [curr.add_message m], goodTopicView tv := by
          intro tv htv
          rcases List.mem_append.1 htv with h | h
          · exact hgood tv (List.mem_append.2 (Or.inl h))
          · simp at h; subst h; exact hadd
        have hchain' :
            List.Chain' (· ≠ ·) ((done ++ [curr.add_message m]).map TopicView.name) := by
          have hnames : (done ++ [curr.add_message m]).map TopicView.name =
              (done ++ [curr]).map TopicView.name := by
            simp [TopicView.add_message_name]
          rw [hnames]; exact hchain
        obtain ⟨done', curr', heq, hg, hc, hf, hnil, hlastname⟩ :=
          ih (curr.add_message m) done hgood' hchain'
        refine ⟨done', curr', ?_, hg, hc, ?_, ?_, ?_⟩
        · show buildTopicGroups (m :: rest) (some curr) done = (done', some curr')
          rw [buildTopicGroups, if_pos hname]
          exact heq
        · rw [hf, feedMessages_append, feedMessages_append, feedMessages_singleton,
            feedMessages_singleton, TopicView.add_message_messages]
          simp
        · intro habs; cases habs
        · intro lm hlm
          cases rest with
          | nil =>
              simp at hlm
              have h2 := (hnil rfl).2
              subst hlm
              rw [h2, TopicView.add_message_name]
              exact hname
          | cons r t =>
              rw [List.getLast?_cons_cons] at hlm
              exact hlastname lm hlm
      · have hfresh_good : goodTopicView
            ((TopicView.make m.stream_id m.topic_name).add_message m) :=
          goodTopicView_fresh m.stream_id m
        have hfresh_name :
            ((TopicView.make m.stream_id m.topic_name).add_message m).name =
              m.topic_name := by
          rw [TopicView.add_message_name]; rfl
        have hfresh_msgs :
            ((TopicView.make m.stream_id m.topic_name).add_message m).messages =
              [m] := by
          rw [TopicView.add_message_messages]; rfl
        have hgood' : ∀ tv ∈ (done ++ [curr]) ++
            [(TopicView.make m.stream_id m.topic_name).add_message m],
            goodTopicView tv := by
          intro tv htv
          rcases List.mem_append.1 htv with h | h
          · exact hgood tv h
          · simp at h; subst h; exact hfresh_good
        have hchain' : List.Chain' (· ≠ ·) (((done ++ [curr]) ++
            [(TopicView.make m.stream_id m.topic_name).add_message m]).map
              TopicView.name) := by
          rw [List.map_append, List.chain'_append]
          refine ⟨hchain, by simp, ?_⟩
          intro x hx y hy
          rw [List.getLast?_map, List.getLast?_concat] at hx
          simp at hx hy
          subst hx
          rw [hfresh_name] at hy
          subst hy
          exact hname
        obtain ⟨done', curr', heq, hg, hc, hf, hnil, hlastname⟩ :=
          ih ((TopicView.make m.stream_id m.topic_name).add_message m)
            (done ++ [curr]) hgood' hchain'
        refine ⟨done', curr', ?_, hg, hc, ?_, ?_, ?_⟩
        · show buildTopicGroups (m :: rest) (some curr) done = (done', some curr')
          rw [buildTopicGroups, if_neg hname]
          exact heq
        · rw [hf, feedMessages_append (done ++ [curr]), feedMessages_singleton,
            hfresh_msgs]
          simp
        · intro habs; cases habs
        · intro lm hlm
          cases rest with
          | nil =>
              simp at hlm
              have h2 := (hnil rfl).2
              subst hlm
              rw [h2, hfresh_name]
          | cons r t =>
              rw [List.getLast?_cons_cons] at hlm
              exact hlastname lm hlm

/-- The section-building loop on a non-empty batch, started (as
`on_messages_loaded` starts it) from no current section: it produces
well-formed sections whose flat content is the batch and whose last
section is named after the batch's final topic. -/
theorem buildTopicGroups_from_nil (msgs : List MessageModel) (hne : msgs ≠ []) :
    ∃ done' curr',
      buildTopicGroups msgs none [] = (done', some curr') ∧
      (∀ tv ∈ done' ++ [curr'], goodTopicView tv) ∧
      List.Chain' (· ≠ ·) ((done' ++ [curr']).map TopicView.name) ∧
      feedMessages (done' ++ [curr']) = msgs ∧
      ∀ lm ∈ msgs.getLast?, curr'.name = lm.topic_name := by
  cases msgs with
  | nil => exact absurd rfl hne
  | cons m rest =>
      have hfresh_good : goodTopicView
          ((TopicView.make m.stream_id m.topic_name).add_message m) :=
        goodTopicView_fresh m.stream_id m
      have hgood : ∀ tv ∈ ([] : List TopicView) ++
          [(TopicView.make m.stream_id m.topic_name).add_message m],
          goodTopicView tv := by
        intro tv htv; simp at htv; subst htv; exact hfresh_good
      have hchain : List.Chain' (· ≠ ·) ((([] : List TopicView) ++
          [(TopicView.make m.stream_id m.topic_name).add_message m]).map
            TopicView.name) := by simp
      obtain ⟨done', curr', heq, hg, hc, hf, hnil, hlastname⟩ :=
        buildTopicGroups_sound rest
          ((TopicView.make m.stream_id m.topic_name).add_message m) [] hgood hchain
      refine ⟨done', curr', ?_, hg, hc, ?_, ?_⟩
      · show buildTopicGroups (m :: rest) none [] = (done', some curr')
        rw [buildTopicGroups]
        exact heq
      · rw [hf]
        simp only [List.nil_append, feedMessages_singleton,
          TopicView.add_message_messages]
        simp [TopicView.make]
      · intro lm hlm
        cases rest with
        | nil =>
            simp at hlm
            have h2 := (hnil rfl).2
            subst hlm
            rw [h2, TopicView.add_message_name]; rfl
        | cons r t =>
            rw [List.getLast?_cons_cons] at hlm
            exact hlastname lm hlm

/-- C4: for every long-poll iteration returning a non-empty event list,
exactly one `message-events` notification carrying precisely the
message-type events of the list, in input order, is emitted when at least
one is present (none otherwise), and the cursor is advanced to the id of
the last event of the list — never an intermediate one.  The iteration is
one atomic step of the embedding, so the new cursor only becomes visible
to the next poll once the whole batch has been processed. -/
theorem long_poll_batch_delivery (account : AccountModel)
    (queue : AccountQueueModel) (evs : List EventModel) (h : evs ≠ []) :
    monitorStep account queue (PollOutcome.events evs) =
      MonitorStep.continue_loop { queue with last_event_id := (evs.getLast h).id }
        (if (evs.filter EventModel.isMessageEvent).isEmpty then []
         else [BusEmission.message_events account
                (evs.filter EventModel.isMessageEvent)]) := by
  simp only [monitorStep, monitorBody, List.getLast?_eq_getLast_of_ne_nil h]

/-- Witness for C4: a batch of three events (heartbeat, message,
heartbeat) emits the single message event and moves the cursor to the
third event's id 30. -/
theorem long_poll_batch_delivery_witness :
    monitorStep { index := 0, server := "chat.example.com", email := "a@b", apikey := none }
      { id := "q1", last_event_id := 5 }
      (PollOutcome.events
        [EventModel.other 10,
         EventModel.message 20
           { id := 100, type := "stream", sender_name := "alice",
             sender_avatar := "/a.png", sender_id := 1, topic_name := "t1",
             reactions := [], content := "hi", stream_id := some 7 },
         EventModel.other 30]) =
      MonitorStep.continue_loop { id := "q1", last_event_id := 30 }
        [BusEmission.message_events
          { index := 0, server := "chat.example.com", email := "a@b", apikey := none }
          [EventModel.message 20
            { id := 100, type := "stream", sender_name := "alice",
              sender_avatar := "/a.png", sender_id := 1, topic_name := "t1",
              reactions := [], content := "hi", stream_id := some 7 }]] := by
  rw [long_poll_batch_delivery _ _ _ (by simp)]
  rfl

/-- C9: one loop iteration of `MonitorAccountEventsTask.process` exits the
loop exactly on the cancellation signal; an ordinary failure is caught and
the loop continues with the cursor (and emissions) untouched. -/
theorem long_poll_exit_only_on_cancel (account : AccountModel)
    (queue : AccountQueueModel) (outcome : PollOutcome) :
    (monitorStep account queue outcome = MonitorStep.exit_loop ↔
      outcome = PollOutcome.cancel) ∧
    monitorStep account queue PollOutcome.failure =
      MonitorStep.continue_loop queue [] := by
  refine ⟨⟨?_, ?_⟩, rfl⟩
  · intro h
    cases outcome with
    | cancel => rfl
    | failure => exact absurd h (by simp [monitorStep])
    | events evs =>
        exfalso
        have hred : monitorStep account queue (PollOutcome.events evs) =
            match monitorBody account queue evs with
            | (emissions, Except.ok q) => MonitorStep.continue_loop q emissions
            | (emissions, Except.error _) =>
                MonitorStep.continue_loop queue emissions := rfl
        rw [hred] at h
        rcases hb : monitorBody account queue evs with ⟨emissions, r⟩
        rw [hb] at h
        cases r <;> simp at h
  · intro h; subst h; rfl

/-- C10: an iteration whose poll returns an empty event list emits nothing
and leaves the cursor untouched, the `events[-1]` `IndexError` of the
body being confined to the caught-error branch: the loop continues. -/
theorem long_poll_empty_batch_no_advance (account : AccountModel)
    (queue : AccountQueueModel) :
    monitorStep account queue (PollOutcome.events []) =
      MonitorStep.continue_loop queue [] ∧
    (monitorBody account queue []).2 = Except.error IterationError.index_error :=
  ⟨rfl, rfl⟩

/-! ## Claim theorems: one-shot tasks -/

/-- C8 counterexample: the claim says every terminating task run emits at
least one named bus event and never propagates an unhandled fault besides
cancellation — but a successful `SendMessageTask.process` run terminates
with no emission at all, and a `LoadDataTask.process` run whose fetch
raises propagates the error (nothing catches it). -/
theorem task_process_emission_counterexample :
    SendMessageTask.process
        { id := 7, name := "general", description := "", invite_only := false }
        { name := "t1", max_id := none } "hello"
        (fun _ => Except.ok ()) =
      Except.ok ([] : List BusEmission) ∧
    LoadDataTask.process "/avatar.png"
        (Except.error { message := "connection refused" }) =
      Except.error { message := "connection refused" } :=
  ⟨rfl, rfl⟩

/-- C8 amended: `GetApiKeyTask.process` emits exactly one event on every
outcome it handles (Zulip errors are caught as `login-failed`); each other
load task emits exactly one named event on every run whose network
interaction succeeds (`LoadMessagesTask` turning `BAD_NARROW` into the
distinct `message-narrow-failed`); `SendMessageTask.process` emits none;
and a raised network error propagates out of every task but
`GetApiKeyTask`. -/
theorem task_process_emissions_amended (account : AccountModel)
    (url data key msg icon : String) (e : NetworkError) (info : AccountInfo)
    (queue : AccountQueueModel) (streams : List StreamModel)
    (stream : StreamModel) (topics : List TopicModel) (anchor : Int)
    (narrow : SearchNarrow) (ms : MessagesModel) (desc : String)
    (topic : TopicModel) (content : String) :
    (GetApiKeyTask.process account (ApiKeyResult.zulip_error msg)).1 =
      [BusEmission.login_failed account msg] ∧
    (GetApiKeyTask.process account (ApiKeyResult.error_result msg)).1 =
      [BusEmission.login_failed account msg] ∧
    (GetApiKeyTask.process account (ApiKeyResult.success key)).1 =
      [BusEmission.api_key_retrieved { account with apikey := some key }] ∧
    LoadDataTask.process url (Except.ok data) =
      Except.ok [BusEmission.data_loaded url data] ∧
    LoadDataTask.process url (Except.error e) = Except.error e ∧
    LoadAccountTask.process account (Except.ok (info, icon, queue)) =
      Except.ok ([BusEmission.account_loaded
          { account with info := some { info with icon := some icon },
                         queue := some queue }],
        { account with info := some { info with icon := some icon },
                       queue := some queue }) ∧
    LoadAccountTask.process account (Except.error e) = Except.error e ∧
    LoadStreamsTask.process account (Except.ok streams) =
      Except.ok [BusEmission.account_streams_loaded account
        (streams.map fun st => (st.name, st))] ∧
    LoadStreamsTask.process account (Except.error e) = Except.error e ∧
    LoadTopicsTask.process account stream (Except.ok topics) =
      Except.ok [BusEmission.stream_topics_loaded account stream topics] ∧
    LoadTopicsTask.process account stream (Except.error e) = Except.error e ∧
    LoadMessagesTask.process account anchor narrow
        (Except.ok (MessagesResult.messages ms)) =
      Except.ok [BusEmission.messages_loaded account narrow anchor ms] ∧
    LoadMessagesTask.process account anchor narrow
        (Except.ok (MessagesResult.bad_narrow desc)) =
      Except.ok [BusEmission.message_narrow_failed account narrow desc] ∧
    LoadMessagesTask.process account anchor narrow (Except.error e) =
      Except.error e ∧
    SendMessageTask.process stream topic content (fun _ => Except.ok ()) =
      Except.ok [] ∧
    SendMessageTask.process stream topic content (fun _ => Except.error e) =
      Except.error e :=
  ⟨rfl, rfl, rfl, rfl, rfl, rfl, rfl, rfl, rfl, rfl, rfl, rfl, rfl, rfl, rfl, rfl⟩

/-! ## Claim theorems: account management -/

/-- C5: a valid triple (non-empty server, email containing `@`, non-empty
password) whose server is not yet registered makes `set_account` succeed,
and afterwards the accounts dict and the persisted account list hold
exactly one entry for that server.  `hkeys` is the dict invariant the bus
maintains (every entry is stored under its account's server). -/
theorem set_account_adds_single_entry (s : BusAccountsState)
    (account : AccountModel) (password : String)
    (hserver : account.server ≠ "")
    (hemail : account.email.toList.contains '@' = true)
    (hpassword : password ≠ "")
    (hfresh : ∀ p ∈ s.accounts, p.1 ≠ account.server)
    (hkeys : ∀ p ∈ s.accounts, (p.2 : AccountModel).server = p.1) :
    ∃ s' a', set_account s account password = Except.ok (s', a') ∧
      (s'.accounts.countP fun p => p.1 == account.server) = 1 ∧
      (s'.settings.countP fun p => p.1 == account.server) = 1 := by
  have hany : (s.accounts.any fun p => p.1 == account.server) = false := by
    rw [List.any_eq_false]
    intro p hp
    simpa using hfresh p hp
  rw [set_account, if_neg hserver, if_neg (not_not_intro hemail),
    if_neg hpassword, if_neg (by simp [hany])]
  set account' :=
    if account.index = -1 then { account with index := (s.accounts.length : Int) }
    else account with haccount'
  have hsrv : account'.server = account.server := by
    rw [haccount']; split <;> rfl
  have hdict : dictSet s.accounts account'.server account' =
      s.accounts ++ [(account'.server, account')] := by
    rw [dictSet, if_neg]
    rw [hsrv, hany]
    simp
  refine ⟨_, _, rfl, ?_, ?_⟩
  · show ((dictSet s.accounts account'.server account').countP
        fun p => p.1 == account.server) = 1
    rw [hdict, List.countP_append]
    have h0 : (s.accounts.countP fun p => p.1 == account.server) = 0 := by
      rw [List.countP_eq_zero]
      intro p hp
      simpa using hfresh p hp
    rw [h0]
    simp [List.countP_cons, hsrv]
  · show ((save_account_data
        (dictSet s.accounts account'.server account')).countP
          fun p => p.1 == account.server) = 1
    rw [hdict, save_account_data, List.map_append, List.countP_append]
    have h0 : ((s.accounts.map fun p =>
        ((p.2 : AccountModel).server, p.2.email, p.2.apikey.getD "")).countP
          fun p => p.1 == account.server) = 0 := by
      rw [List.countP_eq_zero]
      intro q hq
      rcases List.mem_map.1 hq with ⟨p, hp, hpq⟩
      subst hpq
      simp only [beq_iff_eq]
      rw [hkeys p hp]
      exact hfresh p hp
    rw [h0]
    simp [List.countP_cons, hsrv]

/-- Witness for C5: registering `chat.example.com` for the first time on a
bus that already knows one other server. -/
theorem set_account_adds_single_entry_witness :
    ∃ s' a',
      set_account
          { accounts := [("old.example.org",
              { index := 0, server := "old.example.org", email := "o@x",
                apikey := some "k0" })],
            settings := [("old.example.org", "o@x", "k0")] }
          { index := -1, server := "chat.example.com", email := "a@b.c",
            apikey := none }
          "hunter2" =
        Except.ok (s', a') ∧
      (s'.accounts.countP fun p => p.1 == "chat.example.com") = 1 ∧
      (s'.settings.countP fun p => p.1 == "chat.example.com") = 1 :=
  set_account_adds_single_entry _ _ _ (by decide) (by decide) (by decide)
    (by decide) (by decide)

/-- C6: a new-account submission (index `-1`) whose server is already
registered, and any submission with an empty server, an email without `@`
or an empty password, makes `set_account` raise a `ValidationError`, and
the accounts dict and persisted settings are left unchanged (every check
precedes every mutation). -/
theorem set_account_invalid_rejected (s : BusAccountsState)
    (account : AccountModel) (password : String)
    (h : account.server = "" ∨ account.email.toList.contains '@' = false ∨
      password = "" ∨
      ((s.accounts.any fun p => p.1 == account.server) = true ∧
        account.index = -1)) :
    (∃ e, set_account s account password = Except.error e) ∧
    set_account_final s account password = s := by
  have herr : ∃ e, set_account s account password = Except.error e := by
    rw [set_account]
    by_cases h1 : account.server = ""
    · rw [if_pos h1]; exact ⟨_, rfl⟩
    · rw [if_neg h1]
      by_cases h2 : ¬account.email.toList.contains '@'
      · rw [if_pos h2]; exact ⟨_, rfl⟩
      · rw [if_neg h2]
        by_cases h3 : password = ""
        · rw [if_pos h3]; exact ⟨_, rfl⟩
        · rw [if_neg h3]
          have h4 : (s.accounts.any fun p => p.1 == account.server) = true ∧
              account.index = -1 := by
            rcases h with h | h | h | h
            · exact absurd h h1
            · exact absurd h (by simpa using h2)
            · exact absurd h h3
            · exact h
          rw [if_pos (by exact ⟨h4.1, h4.2⟩)]
          exact ⟨_, rfl⟩
  obtain ⟨e, he⟩ := herr
  refine ⟨⟨e, he⟩, ?_⟩
  rw [set_account_final, he]

/-- Witness for C6: a duplicate-server new account is rejected and the bus
state survives untouched. -/
theorem set_account_invalid_rejected_witness :
    (∃ e, set_account
        { accounts := [("chat.example.com",
            { index := 0, server := "chat.example.com", email := "o@x",
              apikey := some "k0" })],
          settings := [("chat.example.com", "o@x", "k0")] }
        { index := -1, server := "chat.example.com", email := "a@b.c",
          apikey := none }
        "hunter2" = Except.error e) ∧
    set_account_final
        { accounts := [("chat.example.com",
            { index := 0, server := "chat.example.com", email := "o@x",
              apikey := some "k0" })],
          settings := [("chat.example.com", "o@x", "k0")] }
        { index := -1, server := "chat.example.com", email := "a@b.c",
          apikey := none }
        "hunter2" =
      { accounts := [("chat.example.com",
          { index := 0, server := "chat.example.com", email := "o@x",
            apikey := some "k0" })],
        settings := [("chat.example.com", "o@x", "k0")] } :=
  set_account_invalid_rejected _ _ _ (Or.inr (Or.inr (Or.inr (by decide))))

/-! ## Claim theorems: the URL cache -/

theorem cacheLookup_append_of_none (l₁ l₂ : List (String × CacheEntry))
    (url : String) (h : cacheLookup l₁ url = none) :
    cacheLookup (l₁ ++ l₂) url = cacheLookup l₂ url := by
  unfold cacheLookup at h ⊢
  rw [List.find?_append]
  rcases hf : l₁.find? fun p => p.1 == url with _ | p
  · rw [hf]; simp
  · rw [hf] at h; simp at h

/-- Storing bytes over a present entry makes the lookup yield them. -/
theorem cacheLookup_store (l : List (String × CacheEntry)) (url : String)
    (d : String) (h : cacheLookup l url ≠ none) :
    cacheLookup
        (l.map fun p => if p.1 = url then (url, CacheEntry.data d) else p) url =
      some (CacheEntry.data d) := by
  induction l with
  | nil => simp [cacheLookup] at h
  | cons p t ih =>
      by_cases hp : p.1 = url
      · simp only [List.map_cons, if_pos hp]
        unfold cacheLookup
        rw [List.find?_cons_of_pos _ (by simp)]
        rfl
      · simp only [List.map_cons, if_neg hp]
        unfold cacheLookup
        rw [List.find?_cons_of_neg _ (by simp [hp])]
        have ht : cacheLookup t url ≠ none := by
          unfold cacheLookup at h ⊢
          rw [List.find?_cons_of_neg _ (by simp [hp])] at h
          exact h
        exact ih ht

/-- While a fetch is pending, further `load_data_from_url` calls do
nothing: no task, no emission, no state change. -/
theorem load_many_loading (url : String) :
    ∀ (n : Nat) (s : CacheState),
      cacheLookup s.cache url = some CacheEntry.loading →
      load_many s (List.replicate n url) = (s, [])
  | 0, s, _ => rfl
  | n + 1, s, h => by
      have h1 : load_data_from_url s url = (s, []) := by
        rw [load_data_from_url, h]
      have h2 : load_many s (List.replicate n url) = (s, []) :=
        load_many_loading url n s h
      rw [List.replicate_succ, load_many, h1]
      simp [h2]

/-- C7: at most one fetch per URL.  Starting from a cache miss, any number
of consecutive `load_data_from_url` calls for the URL enqueue exactly one
fetch task (the first call; later calls see the loading sentinel and
return).  Completion of that single fetch broadcasts one `data-loaded`
emission with the fetched bytes, which every requester receives, and
stores the bytes; afterwards a request for the URL re-emits the cached
bytes with no fetch. -/
theorem url_cache_single_fetch (s : CacheState) (url data : String) (n : Nat)
    (hmiss : cacheLookup s.cache url = none) :
    (load_many s (List.replicate (n + 1) url)).2 = [CacheAction.fetch url] ∧
    (∀ s', cacheLookup s'.cache url = some CacheEntry.loading →
      load_data_from_url s' url = (s', [])) ∧
    (∀ s', cacheLookup s'.cache url = some CacheEntry.loading →
      (complete_fetch s' url data).2 = [CacheAction.emit_data_loaded url data] ∧
      cacheLookup (complete_fetch s' url data).1.cache url =
        some (CacheEntry.data data)) ∧
    (∀ s' b, cacheLookup s'.cache url = some (CacheEntry.data b) →
      load_data_from_url s' url = (s', [CacheAction.emit_data_loaded url b])) := by
  refine ⟨?_, ?_, ?_, ?_⟩
  · have hstep : load_data_from_url s url =
        (⟨s.cache ++ [(url, CacheEntry.loading)]⟩, [CacheAction.fetch url]) := by
      rw [load_data_from_url, hmiss]
    have hload : cacheLookup (s.cache ++ [(url, CacheEntry.loading)]) url =
        some CacheEntry.loading := by
      rw [cacheLookup_append_of_none _ _ _ hmiss]
      unfold cacheLookup
      rw [List.find?_cons_of_pos _ (by simp)]
      rfl
    have h2 := load_many_loading url n ⟨s.cache ++ [(url, CacheEntry.loading)]⟩ hload
    rw [List.replicate_succ, load_many, hstep]
    simp [h2]
  · intro s' h
    rw [load_data_from_url, h]
  · intro s' h
    refine ⟨rfl, ?_⟩
    show cacheLookup (on_data_loaded s' url data).cache url =
      some (CacheEntry.data data)
    rw [on_data_loaded, if_pos h]
    exact cacheLookup_store s'.cache url data (by rw [h]; simp)
  · intro s' b h
    rw [load_data_from_url, h]

/-- Witness for C7: three concurrent requests for one avatar URL on a bus
whose cache starts empty issue a single fetch; completion stores and
re-serves the bytes. -/
theorem url_cache_single_fetch_witness :
    (load_many ⟨[]⟩ (List.replicate 3 "/avatar.png")).2 =
      [CacheAction.fetch "/avatar.png"] ∧
    (∀ s', cacheLookup s'.cache "/avatar.png" = some CacheEntry.loading →
      load_data_from_url s' "/avatar.png" = (s', [])) ∧
    (∀ s', cacheLookup s'.cache "/avatar.png" = some CacheEntry.loading →
      (complete_fetch s' "/avatar.png" "PNGBYTES").2 =
        [CacheAction.emit_data_loaded "/avatar.png" "PNGBYTES"] ∧
      cacheLookup (complete_fetch s' "/avatar.png" "PNGBYTES").1.cache
          "/avatar.png" =
        some (CacheEntry.data "PNGBYTES")) ∧
    (∀ s' b, cacheLookup s'.cache "/avatar.png" = some (CacheEntry.data b) →
      load_data_from_url s' "/avatar.png" =
        (s', [CacheAction.emit_data_loaded "/avatar.png" b])) :=
  url_cache_single_fetch ⟨[]⟩ "/avatar.png" "PNGBYTES" 2 rfl

/-! ## Claim theorems: rendering a batch into an empty feed -/

/-- Shape of a rendered feed: per section its header name and its runs'
message lists. -/
def feedShape (v : MessagesView) : List (String × List (List MessageModel)) :=
  v.topic_views.map fun tv => (tv.name, tv.runs.map MessagesFromSenderView.messages)

/-- Batch A of the spec: msg(topic=t1, sender=1). -/
def exampleMessageA1 : MessageModel :=
  { id := 1, type := "stream", sender_name := "alice", sender_avatar := "/a1.png",
    sender_id := 1, topic_name := "t1", reactions := [], content := "first",
    stream_id := some 7 }

/-- Batch A of the spec: second msg(topic=t1, sender=1). -/
def exampleMessageA2 : MessageModel :=
  { exampleMessageA1 with id := 2, content := "second" }

/-- Batch A of the spec: msg(topic=t1, sender=2). -/
def exampleMessageA3 : MessageModel :=
  { exampleMessageA1 with
      id := 3
      sender_id := 2
      sender_name := "bob"
      content := "third" }

/-- Batch A of the spec, delivered as an initial (found-newest) load. -/
def exampleBatchA : MessagesModel :=
  { found_oldest := true, found_newest := true,
    messages := [exampleMessageA1, exampleMessageA2, exampleMessageA3] }

/-- Rendering a found-newest batch into the pristine view: the listbox is
rebuilt and the sections are exactly what the building loop produces. -/
theorem on_messages_loaded_make (narrow : SearchNarrow) (messages : MessagesModel)
    (hnew : messages.found_newest = true) :
    on_messages_loaded MessagesView.make narrow messages =
      some { narrow := some narrow, has_listbox := true,
             last_messages := some messages,
             topic_views := (buildTopicGroups messages.messages none []).1 ++
               (buildTopicGroups messages.messages none []).2.toList } := by
  simp only [on_messages_loaded, MessagesView.make, hnew]
  rcases hb : buildTopicGroups messages.messages none [] with ⟨done, curr⟩
  cases curr <;> simp

/-- C1: a chronologically ordered batch rendered into an empty feed (an
initial, found-newest load) is partitioned into topic sections — each
non-empty, single-topic, with adjacent sections differing in topic name,
their concatenation being the batch — and each section into sender-runs —
each non-empty, single-sender, adjacent runs differing in sender, their
concatenation being the section (`goodTopicView`): section and run
boundaries sit exactly where topic and sender change between consecutive
messages.  In particular batch A = [msg(t1, s1), msg(t1, s1), msg(t1, s2)]
yields one section t1 with runs [first two | third]. -/
theorem grouping_partitions_by_topic_and_sender (narrow : SearchNarrow)
    (messages : MessagesModel) (hnew : messages.found_newest = true) :
    ∃ v, on_messages_loaded MessagesView.make narrow messages = some v ∧
      feedMessages v.topic_views = messages.messages ∧
      (∀ tv ∈ v.topic_views, goodTopicView tv) ∧
      List.Chain' (· ≠ ·) (v.topic_views.map TopicView.name) ∧
      (on_messages_loaded MessagesView.make {} exampleBatchA).map feedShape =
        some [("t1", [[exampleMessageA1, exampleMessageA2], [exampleMessageA3]])] := by
  have hchar := on_messages_loaded_make narrow messages hnew
  by_cases hne : messages.messages = []
  · rw [hne] at hchar
    refine ⟨_, hchar, ?_, ?_, ?_, rfl⟩
    · show feedMessages ((buildTopicGroups [] none []).1 ++
        (buildTopicGroups [] none []).2.toList) = messages.messages
      rw [hne]
      rfl
    · intro tv htv
      simp [buildTopicGroups] at htv
    · simp [buildTopicGroups]
  · obtain ⟨done', curr', heq, hg, hc, hf, hlastname⟩ :=
      buildTopicGroups_from_nil messages.messages hne
    rw [heq] at hchar
    simp only [Option.toList] at hchar
    exact ⟨_, hchar, hf, hg, hc, rfl⟩

/-- Witness for C1: the claim's own batch A, rendered into the pristine
view. -/
theorem grouping_partitions_witness :
    ∃ v, on_messages_loaded MessagesView.make {} exampleBatchA = some v ∧
      feedMessages v.topic_views = exampleBatchA.messages ∧
      (∀ tv ∈ v.topic_views, goodTopicView tv) ∧
      List.Chain' (· ≠ ·) (v.topic_views.map TopicView.name) ∧
      (on_messages_loaded MessagesView.make {} exampleBatchA).map feedShape =
        some [("t1", [[exampleMessageA1, exampleMessageA2], [exampleMessageA3]])] :=
  grouping_partitions_by_topic_and_sender {} exampleBatchA rfl

/-! ## Claim theorems: older-page backfill merge -/

/-- View used by the C2 witness: one t1 section holding two messages from
one sender, as the initial load leaves it. -/
def backfillTV : TopicView :=
  { stream_id := some 7, name := "t1",
    messages := [exampleMessageA1, exampleMessageA2],
    runs := [{ first := exampleMessageA1,
               messages := [exampleMessageA1, exampleMessageA2] }] }

/-- Messages of a live event batch that pass the narrow's stream and topic
checks of `on_message_events`, in order. -/
def eventMessages (narrow : SearchNarrow) : List EventModel → List MessageModel
  | [] => []
  | EventModel.other _ :: rest => eventMessages narrow rest
  | EventModel.message _ msg :: rest =>
      if (∃ st ∈ narrow.stream, msg.stream_id ≠ some st.id) then
        eventMessages narrow rest
      else if (∃ t ∈ narrow.topic, msg.topic_name ≠ t.name) then
        eventMessages narrow rest
      else msg :: eventMessages narrow rest

/-- The event loop over a batch of message events folds the passing
messages into the last section with `add_message`, leaving every other
section untouched. -/
theorem applyMessageEvents_spec :
    ∀ (events : List EventModel) (narrow : SearchNarrow)
      (init : List TopicView) (tv : TopicView),
      (∀ ev ∈ events, ev.isMessageEvent = true) →
      applyMessageEvents narrow (init ++ [tv]) events =
        some (init ++
          [(eventMessages narrow events).foldl TopicView.add_message tv])
  | [], narrow, init, tv, _ => by
      rw [applyMessageEvents, eventMessages]
      rfl
  | EventModel.other i :: rest, narrow, init, tv, hmsg => by
      have hfalse := hmsg (EventModel.other i) (by simp)
      simp [EventModel.isMessageEvent] at hfalse
  | EventModel.message i msg :: rest, narrow, init, tv, hmsg => by
      have hrest : ∀ e ∈ rest, e.isMessageEvent = true := fun e he =>
        hmsg e (by simp [he])
      by_cases h1 : ∃ st ∈ narrow.stream, msg.stream_id ≠ some st.id
      · rw [applyMessageEvents, if_pos h1, eventMessages, if_pos h1]
        exact applyMessageEvents_spec rest narrow init tv hrest
      · by_cases h2 : ∃ t ∈ narrow.topic, msg.topic_name ≠ t.name
        · rw [applyMessageEvents, if_neg h1, if_pos h2, eventMessages,
            if_neg h1, if_pos h2]
          exact applyMessageEvents_spec rest narrow init tv hrest
        · rw [applyMessageEvents, if_neg h1, if_neg h2, eventMessages,
            if_neg h1, if_neg h2]
          rw [List.getLast?_concat, List.dropLast_concat, List.foldl_cons]
          exact applyMessageEvents_spec rest narrow init (tv.add_message msg) hrest

/-- C3 (amended): live message events reach a populated feed only when a
narrow is set and it carries no query terms at all (so in particular no
free-text search is active); an event failing the set stream or topic
constraint is skipped; every passing message is added to the *last*
existing topic section — a new sender-run begins there exactly when the
sender differs from the bottom run — and no new topic section is ever
created, even when the message's topic differs from that section's (see
the counterexample). -/
theorem live_events_append_amended (view : MessagesView) (narrow : SearchNarrow)
    (events : List EventModel) (init : List TopicView) (lastTV : TopicView)
    (hn : view.narrow = some narrow)
    (hq : narrow.query = [])
    (hv : view.topic_views = init ++ [lastTV])
    (hmsg : ∀ ev ∈ events, ev.isMessageEvent = true) :
    on_message_events view events =
      some { view with topic_views :=
        init ++
          [(eventMessages narrow events).foldl TopicView.add_message lastTV] } ∧
    (∀ v2 evs2, v2.narrow = none → on_message_events v2 evs2 = some v2) ∧
    (∀ v2 n2 evs2, v2.narrow = some n2 → n2.query ≠ [] →
      on_message_events v2 evs2 = some v2) := by
  refine ⟨?_, ?_, ?_⟩
  · simp only [on_message_events, hn]
    rw [if_neg (not_not_intro hq), hv,
      applyMessageEvents_spec events narrow init lastTV hmsg]
  · intro v2 evs2 h
    simp only [on_message_events, h]
  · intro v2 n2 evs2 h hne
    simp only [on_message_events, h]
    rw [if_pos hne]

/-- Narrow of the C3 witness: stream 7 selected, no topic, no query. -/
def liveNarrow : SearchNarrow :=
  { stream := some { id := 7, name := "general", description := "",
                     invite_only := false },
    topic := none, query := [] }

/-- Feed the C3 witness appends into. -/
def liveView : MessagesView :=
  { narrow := some liveNarrow, has_listbox := true,
    last_messages := none, topic_views := [backfillTV] }

/-- Live message of the C3 witness: same stream, same topic, new sender. -/
def liveMessage : MessageModel :=
  { exampleMessageA1 with
      id := 9
      sender_id := 5
      sender_name := "eve"
      content := "live" }

/-- Witness for C3 (amended): one matching live event appended to the
feed's last section. -/
theorem live_events_append_amended_witness :
    on_message_events liveView [EventModel.message 41 liveMessage] =
      some { liveView with topic_views :=
        [] ++
          [(eventMessages liveNarrow [EventModel.message 41 liveMessage]).foldl
            TopicView.add_message backfillTV] } ∧
    (∀ v2 evs2, v2.narrow = none → on_message_events v2 evs2 = some v2) ∧
    (∀ v2 n2 evs2, v2.narrow = some n2 → n2.query ≠ [] →
      on_message_events v2 evs2 = some v2) :=
  live_events_append_amended liveView liveNarrow
    [EventModel.message 41 liveMessage] [] backfillTV rfl rfl rfl (by decide)

/-- C3 counterexample to the unamended claim: a populated feed whose only
section is t1, a narrow with no constraints and no query, and a live
message of topic t2.  The claim says a new topic group is started when the
topic differs from the current tail; the code instead adds the t2 message
into the t1 section, and the feed still has the single section t1. -/
theorem live_events_no_new_topic_group :
    (((on_messages_loaded MessagesView.make {}
        { found_oldest := false, found_newest := true,
          messages := [exampleMessageA1] }).bind
      fun v1 => on_message_events v1
        [EventModel.message 51
          { exampleMessageA1 with
              id := 12
              topic_name := "t2"
              content := "elsewhere" }]).map
      fun v2 => v2.topic_views.map TopicView.name) = some ["t1"] ∧
    (((on_messages_loaded MessagesView.make {}
        { found_oldest := false, found_newest := true,
          messages := [exampleMessageA1] }).bind
      fun v1 => on_message_events v1
        [EventModel.message 51
          { exampleMessageA1 with
              id := 12
              topic_name := "t2"
              content := "elsewhere" }]).map
      fun v2 => feedMessages v2.topic_views) =
      some [exampleMessageA1,
        { exampleMessageA1 with
            id := 12
            topic_name := "t2"
            content := "elsewhere" }] ∧
    ({ exampleMessageA1 with
        id := 12
        topic_name := "t2"
        content := "elsewhere" } : MessageModel).topic_name = "t2" :=
  ⟨rfl, rfl, rfl⟩

end Azul
